import Mathlib

/-!
Verification of the cookie-bot job orchestration and session-cache subsystem.

This file gives a shallow embedding, in Lean, of the Python sources
`generator_client.py`, `extract_cookies.py` and `scheduler.py`:

* Python `dict`s (session JSON objects, stats dictionaries, result maps) are
  modelled as association lists over `String` keys with insert-or-overwrite
  semantics preserving key positions, matching `d[k] = v`.
* The per-identity session files under `sessions/` are modelled as an
  association list from profile id to the stored session record, since
  `save_session` writes exactly one file per profile id and `load_session`
  reads it back.
* External collaborators (the Chrome cookie store and sqlite access, the file
  system writes, and the `hidemyemail-generator` subprocess) are oracles
  passed in as parameters; fallible system calls are `Except`-valued so the
  source's `try/except` blocks appear explicitly.
* The wall clock `time.time()` is an explicit function of the running call
  index, and `f"{label_prefix}{int(time.time())}_{i}"` is modelled via a
  decimal rendering `natStr` with proved injectivity.
-/

/-- Association-list lookup modelling Python `d.get(k)` / `d[k]`. -/
def dlook {α : Type} : List (String × α) → String → Option α
  | [], _ => none
  | (k', v) :: rest, k => if k' = k then some v else dlook rest k

/-- Association-list update modelling Python `d[k] = v`: overwrites the value
in place when the key is present (keeping its position, as a Python dict
does), otherwise appends the new binding at the end (insertion order). -/
def dset {α : Type} : List (String × α) → String → α → List (String × α)
  | [], k, v => [(k, v)]
  | (k', v') :: rest, k, v =>
    if k' = k then (k, v) :: rest else (k', v') :: dset rest k v

/-- The keys of the dictionary, in insertion order (Python `for k in d`). -/
def dkeys {α : Type} (d : List (String × α)) : List String := d.map Prod.fst

/-- Numeric lookup with default 0, for the stats counters. -/
def nlook (d : List (String × Nat)) (k : String) : Nat := (dlook d k).getD 0

theorem dlook_dset_self {α : Type} (d : List (String × α)) (k : String) (v : α) :
    dlook (dset d k v) k = some v := by
  induction d with
  | nil => simp [dset, dlook]
  | cons hd tl ih =>
    obtain ⟨k', v'⟩ := hd
    by_cases h : k' = k
    · simp [dset, h, dlook]
    · simp [dset, h, dlook, ih]

theorem dlook_dset_ne {α : Type} (d : List (String × α)) (k q : String) (v : α)
    (h : q ≠ k) : dlook (dset d k v) q = dlook d q := by
  have h' : ¬(k = q) := fun hq => h hq.symm
  induction d with
  | nil => simp [dset, dlook, h']
  | cons hd tl ih =>
    obtain ⟨k', v'⟩ := hd
    by_cases hk : k' = k
    · subst hk
      simp [dset, dlook, h']
    · by_cases hq : k' = q <;> simp [dset, hk, dlook, hq, ih, h]

theorem dkeys_dset {α : Type} (d : List (String × α)) (k : String) (v : α) :
    dkeys (dset d k v) = if k ∈ dkeys d then dkeys d else dkeys d ++ [k] := by
  induction d with
  | nil => simp [dset, dkeys]
  | cons hd tl ih =>
    obtain ⟨k', v'⟩ := hd
    by_cases hk : k' = k
    · subst hk
      simp [dset, dkeys]
    · have hne : ¬(k = k') := fun hq => hk hq.symm
      simp only [dset, hk, if_false, dkeys, List.map_cons] at ih ⊢
      rw [ih]
      by_cases hm : k ∈ List.map Prod.fst tl <;> simp [hm, hne]

theorem mem_dkeys_dset {α : Type} (d : List (String × α)) (k a : String) (v : α) :
    a ∈ dkeys (dset d k v) ↔ a = k ∨ a ∈ dkeys d := by
  rw [dkeys_dset]
  by_cases hm : k ∈ dkeys d
  · simp only [hm, if_true]
    constructor
    · exact Or.inr
    · rintro (rfl | h) <;> [exact hm; exact h]
  · simp [hm]
    tauto

theorem dkeys_nodup_dset {α : Type} (d : List (String × α)) (k : String) (v : α)
    (h : (dkeys d).Nodup) : (dkeys (dset d k v)).Nodup := by
  rw [dkeys_dset]
  by_cases hm : k ∈ dkeys d
  · simpa [hm] using h
  · simp [hm, List.nodup_append, h]

theorem dlook_isSome_iff_mem {α : Type} (d : List (String × α)) (k : String) :
    (dlook d k).isSome = true ↔ k ∈ dkeys d := by
  induction d with
  | nil => simp [dlook, dkeys]
  | cons hd tl ih =>
    obtain ⟨k', v'⟩ := hd
    by_cases h : k' = k
    · simp [dlook, h, dkeys]
    · have h' : ¬(k = k') := fun hq => h hq.symm
      simp [dlook, h, dkeys, ih, h']

/-! ### Decimal rendering of integers, as produced by Python string formatting -/

/-- Digit accumulation for the decimal rendering, with fuel for structural
recursion; `fuel ≥ n` is always sufficient. -/
def natCharsAux (fuel n : Nat) (acc : List Char) : List Char :=
  match fuel with
  | 0 => acc
  | fuel + 1 =>
    if n = 0 then acc
    else natCharsAux fuel (n / 10) (Nat.digitChar (n % 10) :: acc)

/-- The digit list of a positive number (empty for 0). -/
def natDigits (n : Nat) : List Char := natCharsAux n n []

/-- The decimal digits of `n` as characters, as Python `str(n)` renders a
nonnegative integer. -/
def natChars (n : Nat) : List Char := if n = 0 then ['0'] else natDigits n

/-- Python `str(n)` / `f"{n}"` for a nonnegative integer. -/
def natStr (n : Nat) : String := String.mk (natChars n)

theorem natCharsAux_zero (fuel : Nat) (acc : List Char) :
    natCharsAux fuel 0 acc = acc := by
  cases fuel <;> simp [natCharsAux]

theorem natCharsAux_acc (fuel : Nat) : ∀ (n : Nat) (acc : List Char),
    natCharsAux fuel n acc = natCharsAux fuel n [] ++ acc := by
  induction fuel with
  | zero => intro n acc; simp [natCharsAux]
  | succ fuel ih =>
    intro n acc
    by_cases h : n = 0
    · simp [natCharsAux, h]
    · simp only [natCharsAux, h, if_false]
      rw [ih (n / 10) (Nat.digitChar (n % 10) :: acc),
        ih (n / 10) [Nat.digitChar (n % 10)], List.append_assoc]
      rfl

theorem natCharsAux_fuel (n : Nat) : ∀ fuel₁ fuel₂ : Nat, n ≤ fuel₁ → n ≤ fuel₂ →
    natCharsAux fuel₁ n [] = natCharsAux fuel₂ n [] := by
  induction n using Nat.strong_induction_on with
  | _ n ih =>
    intro fuel₁ fuel₂ h₁ h₂
    by_cases h : n = 0
    · subst h; simp [natCharsAux_zero]
    · have hdiv : n / 10 < n := Nat.div_lt_self (by omega) (by omega)
      obtain ⟨g₁, rfl⟩ := Nat.exists_eq_succ_of_ne_zero (by omega : fuel₁ ≠ 0)
      obtain ⟨g₂, rfl⟩ := Nat.exists_eq_succ_of_ne_zero (by omega : fuel₂ ≠ 0)
      simp only [natCharsAux, h, if_false]
      rw [natCharsAux_acc g₁, natCharsAux_acc g₂,
        ih (n / 10) hdiv g₁ g₂ (by omega) (by omega)]

theorem natDigits_succ (n : Nat) (h : 0 < n) :
    natDigits n = natDigits (n / 10) ++ [Nat.digitChar (n % 10)] := by
  obtain ⟨m, rfl⟩ := Nat.exists_eq_succ_of_ne_zero (by omega : n ≠ 0)
  have hdiv : (m + 1) / 10 < m + 1 := Nat.div_lt_self (by omega) (by omega)
  have h1 : natCharsAux (m + 1) (m + 1) [] =
      natCharsAux m ((m + 1) / 10) [Nat.digitChar ((m + 1) % 10)] := by
    simp [natCharsAux]
  have h2 : natCharsAux m ((m + 1) / 10) [Nat.digitChar ((m + 1) % 10)] =
      natCharsAux m ((m + 1) / 10) [] ++ [Nat.digitChar ((m + 1) % 10)] :=
    natCharsAux_acc m _ _
  have h3 : natCharsAux m ((m + 1) / 10) [] =
      natCharsAux ((m + 1) / 10) ((m + 1) / 10) [] :=
    natCharsAux_fuel ((m + 1) / 10) m ((m + 1) / 10) (by omega) (le_refl _)
  show natCharsAux (m + 1) (m + 1) [] = natDigits ((m + 1) / 10) ++ _
  rw [h1, h2, h3]
  rfl

theorem natDigits_ne_nil (n : Nat) (h : 0 < n) : natDigits n ≠ [] := by
  rw [natDigits_succ n h]; simp

theorem digitChar_lt_inj : ∀ d₁ : Nat, d₁ < 10 → ∀ d₂ : Nat, d₂ < 10 →
    Nat.digitChar d₁ = Nat.digitChar d₂ → d₁ = d₂ := by decide

theorem digitChar_ne_underscore : ∀ d : Nat, d < 10 → Nat.digitChar d ≠ '_' := by
  decide

theorem concat_inj {α : Type} (a b : List α) (x y : α)
    (h : a ++ [x] = b ++ [y]) : a = b ∧ x = y := by
  have h2 := congrArg List.reverse h
  simp at h2
  obtain ⟨h3, h4⟩ := h2
  exact ⟨by simpa using congrArg List.reverse h4, h3⟩

theorem natDigits_no_underscore (n : Nat) : '_' ∉ natDigits n := by
  induction n using Nat.strong_induction_on with
  | _ n ih =>
    by_cases h : n = 0
    · subst h; simp [natDigits, natCharsAux_zero]
    · rw [natDigits_succ n (by omega)]
      have hdiv : n / 10 < n := Nat.div_lt_self (by omega) (by omega)
      simp only [List.mem_append, List.mem_singleton]
      rintro (hm | hm)
      · exact ih (n / 10) hdiv hm
      · exact digitChar_ne_underscore (n % 10) (Nat.mod_lt n (by omega)) hm.symm

theorem natDigits_inj : ∀ m n : Nat, natDigits m = natDigits n → m = n := by
  intro m
  induction m using Nat.strong_induction_on with
  | _ m ih =>
    intro n h
    by_cases hm : m = 0
    · subst hm
      by_contra hn
      exact natDigits_ne_nil n (by omega) (by
        rw [← h]; simp [natDigits, natCharsAux_zero])
    · by_cases hn : n = 0
      · subst hn
        exact absurd (by rw [h]; simp [natDigits, natCharsAux_zero])
          (natDigits_ne_nil m (by omega))
      · rw [natDigits_succ m (by omega), natDigits_succ n (by omega)] at h
        obtain ⟨hpre, hdig⟩ := concat_inj _ _ _ _ h
        have hdiv : m / 10 < m := Nat.div_lt_self (by omega) (by omega)
        have h1 : m / 10 = n / 10 := ih (m / 10) hdiv (n / 10) hpre
        have h2 : m % 10 = n % 10 :=
          digitChar_lt_inj (m % 10) (Nat.mod_lt m (by omega)) (n % 10)
            (Nat.mod_lt n (by omega)) hdig
        omega

theorem natChars_no_underscore (n : Nat) : '_' ∉ natChars n := by
  unfold natChars
  by_cases h : n = 0
  · simp [h]
  · simpa [h] using natDigits_no_underscore n

theorem natChars_inj (m n : Nat) (h : natChars m = natChars n) : m = n := by
  unfold natChars at h
  by_cases hm : m = 0 <;> by_cases hn : n = 0
  · omega
  · exfalso
    simp [hm, hn] at h
    rw [natDigits_succ n (by omega)] at h
    obtain ⟨hpre, hdig⟩ := concat_inj [] (natDigits (n / 10)) '0'
      (Nat.digitChar (n % 10)) (by simpa using h)
    have h10 : n % 10 = 0 := by
      have := digitChar_lt_inj (n % 10) (Nat.mod_lt n (by omega)) 0 (by omega)
      exact this hdig.symm
    have hd : n / 10 = 0 := by
      by_contra hne
      exact natDigits_ne_nil (n / 10) (by omega) hpre.symm
    omega
  · exfalso
    simp [hm, hn] at h
    rw [natDigits_succ m (by omega)] at h
    obtain ⟨hpre, hdig⟩ := concat_inj (natDigits (m / 10)) [] (Nat.digitChar (m % 10)) '0'
      (by simpa using h)
    have h10 : m % 10 = 0 := by
      have := digitChar_lt_inj (m % 10) (Nat.mod_lt m (by omega)) 0 (by omega)
      exact this hdig
    have hd : m / 10 = 0 := by
      by_contra hne
      exact natDigits_ne_nil (m / 10) (by omega) hpre
    omega
  · simp [hm, hn] at h
    exact natDigits_inj m n h

theorem natStr_inj (m n : Nat) (h : natStr m = natStr n) : m = n := by
  apply natChars_inj
  unfold natStr at h
  injection h

theorem split_underscore : ∀ (l₁ l₂ m₁ m₂ : List Char), '_' ∉ l₁ → '_' ∉ l₂ →
    l₁ ++ '_' :: m₁ = l₂ ++ '_' :: m₂ → l₁ = l₂ ∧ m₁ = m₂ := by
  intro l₁
  induction l₁ with
  | nil =>
    intro l₂ m₁ m₂ _ h₂ h
    cases l₂ with
    | nil => simpa using h
    | cons b t₂ =>
      exfalso
      simp at h
      apply h₂
      rw [← h.1]
      exact List.mem_cons_self '_' t₂
  | cons a t₁ ih =>
    intro l₂ m₁ m₂ h₁ h₂ h
    cases l₂ with
    | nil =>
      exfalso
      simp at h
      apply h₁
      rw [h.1]
      exact List.mem_cons_self '_' t₁
    | cons b t₂ =>
      simp at h
      obtain ⟨rfl, hrest⟩ := h
      have := ih t₂ m₁ m₂ (by simp at h₁; exact h₁.2) (by simp at h₂; exact h₂.2) hrest
      exact ⟨by rw [this.1], this.2⟩

/-! ### Data model: sessions and the on-disk session cache

`extract_cookies.py` writes one JSON file per profile id under `sessions/`,
holding the cookie dictionary, the profile id and a capture timestamp;
`generator_client.py` reads the same files back.  The directory is modelled
as an association list keyed by profile id. -/

/-- A cookie dictionary, as stored under the `"cookies"` key of a session
file: cookie name to (decrypted) value. -/
def Cookies : Type := List (String × String)

/-- One session file: the JSON object written by `save_session`. -/
structure Session where
  cookies : List (String × String)
  profile_id : String
  timestamp : Nat
deriving DecidableEq, Repr

/-- The `sessions/` directory: one entry per profile id. -/
def Store : Type := List (String × Session)

/-- The iCloud cookie names listed in `REQUIRED_COOKIES` in
`extract_cookies.py`. -/
def REQUIRED_COOKIES : List String :=
  ["X-APPLE-WEBAUTH-HSA-TRUST", "X-APPLE-ID-SESSION-ID", "X-APPLE-WEBAUTH-USER",
   "dsid", "scnt", "X-APPLE-ID-TOKEN"]

/-- A cookie dictionary is complete when every required cookie name is
present. -/
def completeCookies (c : List (String × String)) : Prop :=
  ∀ name ∈ REQUIRED_COOKIES, (dlook c name).isSome = true

instance (c : List (String × String)) : Decidable (completeCookies c) := by
  unfold completeCookies
  infer_instance

namespace HideMyEmailGenerator

/-- `load_session` in `generator_client.py`: read `sessions/{profile_id}.json`,
returning `None` when the file is absent. -/
def load_session (store : Store) (profile_id : String) : Option Session :=
  dlook store profile_id

/-- The outcome of one `hidemyemail-generator` subprocess invocation together
with output parsing, abstracted as an oracle value: `Except.error` is an
exception inside the `try` block, `Except.ok none` a nonzero exit status or
unparseable output, and `Except.ok (some e)` a parsed generated address `e`. -/
def SubprocessResult : Type := Except Unit (Option String)

/-- `generate_email` in `generator_client.py`: load the session, require a
nonempty cookie dictionary, run the generator subprocess and return
`(success, generated_email)`; every failure path yields `(False, None)`. -/
def generate_email (store : Store) (sub : SubprocessResult)
    (profile_id label : String) : Bool × Option String :=
  match load_session store profile_id with
  | none => (false, none)
  | some session =>
    if session.cookies.isEmpty then (false, none)
    else
      match sub with
      | Except.error _ => (false, none)
      | Except.ok none => (false, none)
      | Except.ok (some out) => if out = "" then (false, none) else (true, some out)

/-- One generation call made by `generate_batch`: the profile it was for, the
label passed to the generator, the global (run-wide) call index, and whether
the call succeeded. -/
structure Call where
  pid : String
  label : String
  idx : Nat
  ok : Bool
deriving DecidableEq, Repr

/-- The label derived at call index `i` for a profile when the coarse clock
reads `t`: Python `f"{label_prefix}{int(time.time())}_{i}"`. -/
def labelFor (pre : String) (t i : Nat) : String :=
  pre ++ natStr t ++ "_" ++ natStr i

/-- The inner loop of `generate_batch` for one profile: `rem` remaining calls,
`i` the next per-profile call index, `k` the global index of that call.
Returns the collected e-mails for the profile (appended only on a successful
call with a truthy value, Python `if success and email`) and the trace of the
calls made.  The loop never stops early: a failed call only skips the
append. -/
def profileGo (store : Store) (sub : Nat → SubprocessResult) (clock : Nat → Nat)
    (pid pre : String) (k : Nat) : Nat → Nat → List String × List Call
  | _, 0 => ([], [])
  | i, rem + 1 =>
    let label := labelFor pre (clock (k + i)) i
    let r := generate_email store (sub (k + i)) pid label
    let rest := profileGo store sub clock pid pre k (i + 1) rem
    (match r.2 with
     | some e => if r.1 && !(e = "") then e :: rest.1 else rest.1
     | none => rest.1,
     ⟨pid, label, k + i, r.1⟩ :: rest.2)

/-- The outer loop of `generate_batch`: `results[profile_id] = []` then the
per-profile loop, for each profile id in the given order; `k` counts the
generation calls made so far in the run. -/
def batchGo (store : Store) (sub : Nat → SubprocessResult) (clock : Nat → Nat)
    (pre : String) (count : Nat) :
    List String → List (String × List String) → Nat →
    List (String × List String) × List Call
  | [], results, _ => (results, [])
  | pid :: rest, results, k =>
    let pr := profileGo store sub clock pid pre k 0 count
    let r := batchGo store sub clock pre count rest (dset results pid pr.1) (k + count)
    (r.1, pr.2 ++ r.2)

/-- `generate_batch` in `generator_client.py`: the returned dictionary mapping
profile ids to generated e-mails, together with the trace of generation
calls made during the run. -/
def generate_batch (store : Store) (sub : Nat → SubprocessResult)
    (clock : Nat → Nat) (profile_ids : List String) (count_per_profile : Nat)
    (labelPre : String) : List (String × List String) × List Call :=
  batchGo store sub clock labelPre count_per_profile profile_ids [] 0

/-- Clock admissibility for one `generate_batch` run over `np` profiles with
`count` calls each: `time.time()` is non-decreasing, and the 2-second
`time.sleep(2)` between consecutive calls for the same profile advances it by
at least 2; between profiles no sleep happens. -/
def ClockOk (count np : Nat) (clock : Nat → Nat) : Prop :=
  (∀ j j' : Nat, j ≤ j' → clock j ≤ clock j') ∧
  ∀ q i : Nat, q < np → i + 1 < count →
    clock (q * count + i) + 2 ≤ clock (q * count + i + 1)

end HideMyEmailGenerator

/-! ### The cookie extractor (`extract_cookies.py`) -/

/-- One entry of the `profiles` list in `config.json`; missing keys are
`none` (Python `profile.get(...)` returning `None`). -/
structure Profile where
  id : Option String
  path : Option String
deriving DecidableEq, Repr

/-- The loaded configuration: the profile list and the two numeric settings,
`none` when the key is absent (Python `config.get(key, default)` supplies the
default at each use site). -/
structure Config where
  profiles : List Profile
  email_limit_per_hour : Option Nat
  refresh_interval_minutes : Option Nat

namespace CookieExtractor

/-- The path of the session file written for a profile. -/
def sessionPath (profile_id : String) : String :=
  "sessions/" ++ profile_id ++ ".json"

/-- `save_session` in `extract_cookies.py`: write the session JSON for the
profile; an I/O failure is caught and reported as `False`, leaving the
durable state unchanged. -/
def save_session (write : String → Except Unit Unit) (store : Store)
    (profile_id : String) (cookies : List (String × String)) (ts : Nat) :
    Store × Bool :=
  match write (sessionPath profile_id) with
  | Except.error _ => (store, false)
  | Except.ok _ => (dset store profile_id ⟨cookies, profile_id, ts⟩, true)

/-- `extract_cookies_from_profile` in `extract_cookies.py`: no configured
path or a missing Cookies file yields `{}`; the sqlite/decryption block is an
oracle whose exceptions are caught (`return {}`); otherwise the cookie
dictionary it produced is returned. -/
def extract_cookies_from_profile (pathOk : String → Bool)
    (sql : Profile → Except Unit (List (String × String))) (p : Profile) :
    List (String × String) :=
  match p.path with
  | none => []
  | some path =>
    if pathOk (path ++ "/Cookies") then
      match sql p with
      | Except.error _ => []
      | Except.ok cookies => cookies
    else []

/-- The loop of `extract_all_profiles_cookies`: profiles without a truthy id
are skipped; a nonempty extracted dictionary is recorded in `all_cookies`
and saved to the profile's session file; an empty one (failure) only logs. -/
def extractAllGo (pathOk : String → Bool)
    (sql : Profile → Except Unit (List (String × String)))
    (write : String → Except Unit Unit) (ts : Nat) :
    List Profile → List (String × List (String × String)) → Store →
    List (String × List (String × String)) × Store
  | [], acc, store => (acc, store)
  | p :: rest, acc, store =>
    match p.id with
    | none => extractAllGo pathOk sql write ts rest acc store
    | some pid =>
      if pid = "" then extractAllGo pathOk sql write ts rest acc store
      else
        let cookies := extract_cookies_from_profile pathOk sql p
        if cookies.isEmpty then extractAllGo pathOk sql write ts rest acc store
        else
          extractAllGo pathOk sql write ts rest (dset acc pid cookies)
            (save_session write store pid cookies ts).1

/-- `extract_all_profiles_cookies` in `extract_cookies.py`: returns the
dictionary of successfully extracted cookie sets and the updated session
directory. -/
def extract_all_profiles_cookies (pathOk : String → Bool)
    (sql : Profile → Except Unit (List (String × String)))
    (write : String → Except Unit Unit) (ts : Nat) (profiles : List Profile)
    (store : Store) : List (String × List (String × String)) × Store :=
  extractAllGo pathOk sql write ts profiles [] store

end CookieExtractor

/-! ### The scheduler (`scheduler.py`) -/

/-- The oracle environment of one `TaskScheduler`: the configuration loaded
at construction and the external collaborators (file existence, sqlite
cookie reads, session-file writes, generator subprocess runs, and the coarse
clock read before each generation call). -/
structure Env where
  config : Config
  pathOk : String → Bool
  sql : Profile → Except Unit (List (String × String))
  write : String → Except Unit Unit
  sub : Nat → HideMyEmailGenerator.SubprocessResult
  clock : Nat → Nat

/-- The mutable state of one `TaskScheduler` instance, together with the
session directory it reads and writes.  `threadAlive` models
`self.scheduler_thread and self.scheduler_thread.is_alive()`. -/
structure SchedState where
  running : Bool
  threadAlive : Bool
  last_extraction : Option Int
  next_scheduled : Option Int
  emails_generated : List (String × Nat)
  extraction_counts : List (String × Nat)
  store : Store

/-- Increment a stats counter, guarded by key membership as in
`if profile_id in self.stats[...]: self.stats[...][profile_id] += 1`. -/
def dincIf (s : List (String × Nat)) (pid : String) : List (String × Nat) :=
  match dlook s pid with
  | some n => dset s pid (n + 1)
  | none => s

/-- Add `m` to a stats counter, guarded by key membership as in
`if profile_id in self.stats[...]: self.stats[...][profile_id] += len(emails)`. -/
def daddIf (s : List (String × Nat)) (pid : String) (m : Nat) :
    List (String × Nat) :=
  match dlook s pid with
  | some n => dset s pid (n + m)
  | none => s

namespace TaskScheduler

/-- `extract_cookies_job` in `scheduler.py`: record the extraction time, run
the extractor over all configured profiles, and bump `extraction_counts` for
each profile id present in the returned dictionary.  The surrounding
`try/except` returns `{}` on an escaped exception; in the model no step of
the body can raise (all fallible collaborators are caught deeper down), so
the body is total. -/
def extract_cookies_job (env : Env) (tNow : Int) (ts : Nat) (st : SchedState) :
    List (String × List (String × String)) × SchedState :=
  let st₁ := { st with last_extraction := some tNow }
  let r := CookieExtractor.extract_all_profiles_cookies env.pathOk env.sql
    env.write ts env.config.profiles st₁.store
  let counts := (dkeys r.1).foldl dincIf st₁.extraction_counts
  (r.1, { st₁ with store := r.2, extraction_counts := counts })

/-- The profile-id list `[p.get("id") for p in profiles if p.get("id")]`
(Python truthiness: missing ids and empty-string ids are dropped). -/
def configuredIds (c : Config) : List String :=
  c.profiles.filterMap fun p =>
    match p.id with
    | none => none
    | some pid => if pid = "" then none else some pid

/-- `generate_emails_job` in `scheduler.py`: run `generate_batch` over the
configured profile ids with the configured per-cycle limit (default 5) and
bump `emails_generated` by the number of addresses returned per profile. -/
def generate_emails_job (env : Env) (st : SchedState) :
    List (String × List String) × SchedState :=
  let email_limit := env.config.email_limit_per_hour.getD 5
  let r := HideMyEmailGenerator.generate_batch st.store env.sub env.clock
    (configuredIds env.config) email_limit "Auto_"
  let stats := r.1.foldl (fun s pr => daddIf s pr.1 pr.2.length) st.emails_generated
  (r.1, { st with emails_generated := stats })

/-- `schedule_jobs` in `scheduler.py`: register the two recurring jobs and
set `next_scheduled = now + refresh_interval * 60` (default 60 minutes). -/
def schedule_jobs (env : Env) (tNow : Int) (st : SchedState) : SchedState :=
  let nxt : Int := tNow + 60 * Int.ofNat (env.config.refresh_interval_minutes.getD 60)
  { st with next_scheduled := some nxt }

/-- `start` in `scheduler.py`: refuse when the scheduler thread is already
alive; otherwise register the jobs, run one extraction immediately, and
start the background thread (which sets `running = True`). -/
def start (env : Env) (tNow : Int) (ts : Nat) (st : SchedState) :
    Bool × SchedState :=
  if st.threadAlive then (false, st)
  else
    let st₁ := schedule_jobs env tNow st
    let st₂ := (extract_cookies_job env tNow ts st₁).2
    (true, { st₂ with threadAlive := true, running := true })

/-- `stop` in `scheduler.py`: refuse when not running; otherwise clear the
flag and join the background thread (which exits its poll loop). -/
def stop (st : SchedState) : Bool × SchedState :=
  if st.running then (true, { st with running := false, threadAlive := false })
  else (false, st)

/-- Python truthiness of the optional `next_scheduled` timestamp: `None` and
the zero epoch are falsy. -/
def truthyTime : Option Int → Bool
  | none => false
  | some t => !(t = 0)

/-- The dictionary returned by `get_status`. -/
structure Status where
  running : Bool
  last_extraction : Option Int
  next_scheduled : Option Int
  time_until_next : Option Int
  emails_generated : List (String × Nat)
  extraction_counts : List (String × Nat)

/-- `get_status` in `scheduler.py`: a snapshot of the scheduler state;
`time_until_next` is `int(self.next_scheduled - time.time())` when
`next_scheduled` is truthy, else `None`. -/
def get_status (st : SchedState) (now : Int) : Status :=
  { running := st.running
    last_extraction := st.last_extraction
    next_scheduled := if truthyTime st.next_scheduled then st.next_scheduled else none
    time_until_next :=
      if truthyTime st.next_scheduled then some (st.next_scheduled.getD 0 - now)
      else none
    emails_generated := st.emails_generated
    extraction_counts := st.extraction_counts }

/-- The dictionary returned by `run_now`. -/
structure RunResult where
  cookies_extracted : Bool
  emails_generated : List (String × List String)

/-- `run_now` in `scheduler.py`: run the extraction job, then the generation
job, then set `next_scheduled` to the completion time plus one refresh
interval. -/
def run_now (env : Env) (tNow : Int) (ts : Nat) (tDone : Int) (st : SchedState) :
    RunResult × SchedState :=
  let r₁ := extract_cookies_job env tNow ts st
  let r₂ := generate_emails_job env r₁.2
  let nxt : Int := tDone + 60 * Int.ofNat (env.config.refresh_interval_minutes.getD 60)
  let st₃ := { r₂.2 with next_scheduled := some nxt }
  ({ cookies_extracted := !r₁.1.isEmpty, emails_generated := r₂.1 }, st₃)

end TaskScheduler

/-- The operations a caller can invoke on one running `TaskScheduler`
instance, with the wall-clock readings each makes. -/
inductive SchedOp where
  | startOp (tNow : Int) (ts : Nat)
  | stopOp
  | runNowOp (tNow : Int) (ts : Nat) (tDone : Int)
  | extractJobOp (tNow : Int) (ts : Nat)
  | generateJobOp
  | scheduleJobsOp (tNow : Int)
  | getStatusOp (now : Int)

/-- The state transition of each scheduler operation (`get_status` reads
without mutating). -/
def applyOp (env : Env) : SchedOp → SchedState → SchedState
  | SchedOp.startOp t ts, st => (TaskScheduler.start env t ts st).2
  | SchedOp.stopOp, st => (TaskScheduler.stop st).2
  | SchedOp.runNowOp a b c, st => (TaskScheduler.run_now env a b c st).2
  | SchedOp.extractJobOp a b, st => (TaskScheduler.extract_cookies_job env a b st).2
  | SchedOp.generateJobOp, st => (TaskScheduler.generate_emails_job env st).2
  | SchedOp.scheduleJobsOp t, st => TaskScheduler.schedule_jobs env t st
  | SchedOp.getStatusOp _, st => st

/-! ### Lemmas about the generator client -/

namespace HideMyEmailGenerator

/-- The call record produced at per-profile index `i` of the window starting
at global index `k`. -/
def mkCall (store : Store) (sub : Nat → SubprocessResult) (clock : Nat → Nat)
    (pid pre : String) (k i : Nat) : Call :=
  ⟨pid, labelFor pre (clock (k + i)) i, k + i,
    (generate_email store (sub (k + i)) pid (labelFor pre (clock (k + i)) i)).1⟩

theorem generate_email_true (store : Store) (sub : SubprocessResult)
    (pid label : String) : (generate_email store sub pid label).1 = true →
    ∃ e, (generate_email store sub pid label).2 = some e ∧ ¬(e = "") := by
  unfold generate_email
  cases load_session store pid with
  | none => intro h; simp at h
  | some s =>
    by_cases hc : s.cookies.isEmpty
    · intro h; simp [hc] at h
    · simp only [hc, if_false]
      cases sub with
      | error e => intro h; simp at h
      | ok o =>
        cases o with
        | none => intro h; simp at h
        | some out =>
          by_cases ho : out = ""
          · intro h; simp [ho] at h
          · intro h; simp [ho]

theorem profileGo_trace (store : Store) (sub : Nat → SubprocessResult)
    (clock : Nat → Nat) (pid pre : String) (k : Nat) :
    ∀ (rem i : Nat), (profileGo store sub clock pid pre k i rem).2 =
      (List.range rem).map (fun j => mkCall store sub clock pid pre k (i + j)) := by
  intro rem
  induction rem with
  | zero => intro i; simp [profileGo]
  | succ rem ih =>
    intro i
    rw [List.range_succ_eq_map, List.map_cons, List.map_map]
    show (profileGo store sub clock pid pre k i (rem + 1)).2 = _
    simp only [profileGo]
    rw [ih (i + 1)]
    have hfun : ((fun j => mkCall store sub clock pid pre k (i + j)) ∘ Nat.succ)
        = fun j => mkCall store sub clock pid pre k (i + 1 + j) := by
      funext j
      show mkCall store sub clock pid pre k (i + (j + 1)) =
        mkCall store sub clock pid pre k (i + 1 + j)
      have hx : i + (j + 1) = i + 1 + j := by omega
      rw [hx]
    rw [hfun]
    rfl

theorem profileGo_pid (store : Store) (sub : Nat → SubprocessResult)
    (clock : Nat → Nat) (pid pre : String) (k rem i : Nat) :
    ∀ c ∈ (profileGo store sub clock pid pre k i rem).2, c.pid = pid := by
  intro c hc
  rw [profileGo_trace] at hc
  obtain ⟨j, _, rfl⟩ := List.mem_map.mp hc
  rfl

theorem profileGo_len (store : Store) (sub : Nat → SubprocessResult)
    (clock : Nat → Nat) (pid pre : String) (k rem i : Nat) :
    (profileGo store sub clock pid pre k i rem).2.length = rem := by
  rw [profileGo_trace]; simp

theorem profileGo_emails_length (store : Store) (sub : Nat → SubprocessResult)
    (clock : Nat → Nat) (pid pre : String) (k : Nat) :
    ∀ (rem i : Nat), (profileGo store sub clock pid pre k i rem).1.length =
      ((profileGo store sub clock pid pre k i rem).2.filter (fun c => c.ok)).length := by
  intro rem
  induction rem with
  | zero => intro i; simp [profileGo]
  | succ rem ih =>
    intro i
    show ((profileGo store sub clock pid pre k i (rem + 1)).1).length = _
    simp only [profileGo]
    cases hok : (generate_email store (sub (k + i)) pid
        (labelFor pre (clock (k + i)) i)).1 with
    | true =>
      obtain ⟨e, he, hne⟩ := generate_email_true _ _ _ _ hok
      simp [he, hok, hne, List.filter_cons, ih (i + 1)]
    | false =>
      cases hm : (generate_email store (sub (k + i)) pid
          (labelFor pre (clock (k + i)) i)).2 with
      | none => simp [hm, hok, List.filter_cons, ih (i + 1)]
      | some e => simp [hm, hok, List.filter_cons, ih (i + 1)]

end HideMyEmailGenerator

theorem data_mk (l : List Char) : (String.mk l).data = l := rfl

theorem HideMyEmailGenerator.labelFor_inj (pre : String) (t₁ i₁ t₂ i₂ : Nat)
    (h : HideMyEmailGenerator.labelFor pre t₁ i₁ =
      HideMyEmailGenerator.labelFor pre t₂ i₂) : t₁ = t₂ ∧ i₁ = i₂ := by
  have hd := congrArg String.data h
  simp only [HideMyEmailGenerator.labelFor, natStr, String.data_append, data_mk,
    List.append_assoc] at hd
  simp only [List.singleton_append] at hd
  have hc := List.append_cancel_left hd
  obtain ⟨ht, hi⟩ := split_underscore (natChars t₁) (natChars t₂) (natChars i₁)
    (natChars i₂) (natChars_no_underscore t₁) (natChars_no_underscore t₂) hc
  exact ⟨natChars_inj _ _ ht, natChars_inj _ _ hi⟩

namespace HideMyEmailGenerator

theorem batchGo_trace_results_free (store : Store) (sub : Nat → SubprocessResult)
    (clock : Nat → Nat) (pre : String) (count : Nat) :
    ∀ (ps : List String) (results results' : List (String × List String)) (k : Nat),
      (batchGo store sub clock pre count ps results k).2 =
      (batchGo store sub clock pre count ps results' k).2 := by
  intro ps
  induction ps with
  | nil => intro results results' k; rfl
  | cons pid rest ih =>
    intro results results' k
    simp only [batchGo]
    rw [ih (dset results pid (profileGo store sub clock pid pre k 0 count).1)
      (dset results' pid (profileGo store sub clock pid pre k 0 count).1) (k + count)]

theorem batchGo_trace_pid_mem (store : Store) (sub : Nat → SubprocessResult)
    (clock : Nat → Nat) (pre : String) (count : Nat) :
    ∀ (ps : List String) (results : List (String × List String)) (k : Nat),
      ∀ c ∈ (batchGo store sub clock pre count ps results k).2, c.pid ∈ ps := by
  intro ps
  induction ps with
  | nil => intro results k c hc; simp [batchGo] at hc
  | cons pid rest ih =>
    intro results k c hc
    simp only [batchGo] at hc
    rcases List.mem_append.mp hc with hw | hr
    · rw [profileGo_pid store sub clock pid pre k count 0 c hw]
      exact List.mem_cons_self pid rest
    · exact List.mem_cons_of_mem pid (ih _ (k + count) c hr)

theorem batchGo_lookup_not_mem (store : Store) (sub : Nat → SubprocessResult)
    (clock : Nat → Nat) (pre : String) (count : Nat) (pid : String) :
    ∀ (ps : List String) (results : List (String × List String)) (k : Nat),
      pid ∉ ps →
      dlook (batchGo store sub clock pre count ps results k).1 pid =
        dlook results pid := by
  intro ps
  induction ps with
  | nil => intro results k _; rfl
  | cons q rest ih =>
    intro results k hnm
    simp only [batchGo]
    rw [ih _ (k + count) (fun hm => hnm (List.mem_cons_of_mem q hm))]
    exact dlook_dset_ne results q pid _ (fun he => hnm (he ▸ List.mem_cons_self q rest))

theorem batchGo_lookup_last (store : Store) (sub : Nat → SubprocessResult)
    (clock : Nat → Nat) (pre : String) (count : Nat) (pid : String) :
    ∀ (l₁ l₂ : List String) (results : List (String × List String)) (k : Nat),
      pid ∉ l₂ →
      dlook (batchGo store sub clock pre count (l₁ ++ pid :: l₂) results k).1 pid =
        some (profileGo store sub clock pid pre (k + count * l₁.length) 0 count).1 := by
  intro l₁
  induction l₁ with
  | nil =>
    intro l₂ results k hnm
    simp only [List.nil_append, batchGo]
    rw [batchGo_lookup_not_mem store sub clock pre count pid l₂ _ (k + count) hnm]
    rw [dlook_dset_self]
    simp
  | cons q l₁ ih =>
    intro l₂ results k hnm
    show dlook (batchGo store sub clock pre count (q :: (l₁ ++ pid :: l₂)) results k).1
      pid = _
    simp only [batchGo]
    rw [ih l₂ _ (k + count) hnm]
    have hx : k + count + count * l₁.length = k + count * (q :: l₁).length := by
      simp only [List.length_cons, Nat.mul_succ]
      ring
    rw [hx]

theorem batchGo_keys_nodup (store : Store) (sub : Nat → SubprocessResult)
    (clock : Nat → Nat) (pre : String) (count : Nat) :
    ∀ (ps : List String) (results : List (String × List String)) (k : Nat),
      (dkeys results).Nodup →
      (dkeys (batchGo store sub clock pre count ps results k).1).Nodup := by
  intro ps
  induction ps with
  | nil => intro results k h; exact h
  | cons q rest ih =>
    intro results k h
    simp only [batchGo]
    exact ih _ (k + count) (dkeys_nodup_dset results q _ h)

theorem batchGo_trace_length (store : Store) (sub : Nat → SubprocessResult)
    (clock : Nat → Nat) (pre : String) (count : Nat) :
    ∀ (ps : List String) (results : List (String × List String)) (k : Nat),
      (batchGo store sub clock pre count ps results k).2.length =
        ps.length * count := by
  intro ps
  induction ps with
  | nil => intro results k; simp [batchGo]
  | cons q rest ih =>
    intro results k
    simp only [batchGo, List.length_append, List.length_cons]
    rw [profileGo_len, ih _ (k + count), Nat.succ_mul]
    omega

end HideMyEmailGenerator

/-! ### Lemmas about the stats counters -/

theorem dincIf_isSome (s : List (String × Nat)) (pid q : String) :
    (dlook (dincIf s pid) q).isSome = (dlook s q).isSome := by
  unfold dincIf
  cases h : dlook s pid with
  | none => rfl
  | some n =>
    by_cases hq : q = pid
    · subst hq
      rw [dlook_dset_self, h]
      rfl
    · rw [dlook_dset_ne s pid q _ hq]

theorem nlook_dincIf_self (s : List (String × Nat)) (pid : String) :
    nlook (dincIf s pid) pid =
      nlook s pid + (if (dlook s pid).isSome then 1 else 0) := by
  unfold dincIf nlook
  cases h : dlook s pid with
  | none => simp [h]
  | some n => rw [dlook_dset_self]; simp [h]

theorem nlook_dincIf_ne (s : List (String × Nat)) (pid q : String) (h : q ≠ pid) :
    nlook (dincIf s pid) q = nlook s q := by
  unfold dincIf nlook
  cases hp : dlook s pid with
  | none => rfl
  | some n => rw [dlook_dset_ne s pid q _ h]

theorem foldl_dincIf (ks : List String) : ∀ (s : List (String × Nat)) (p : String),
    nlook (ks.foldl dincIf s) p =
      nlook s p + (if (dlook s p).isSome then ks.count p else 0) := by
  induction ks with
  | nil =>
    intro s p
    cases h : (dlook s p).isSome <;> simp [h]
  | cons k ks ih =>
    intro s p
    rw [List.foldl_cons, ih (dincIf s k) p]
    by_cases hp : p = k
    · subst hp
      rw [nlook_dincIf_self, dincIf_isSome, List.count_cons_self]
      cases h : (dlook s p).isSome <;> simp [h] <;> omega
    · rw [nlook_dincIf_ne s k p hp, dincIf_isSome,
        List.count_cons_of_ne (fun he => hp he)]

theorem daddIf_mono (s : List (String × Nat)) (pid : String) (m : Nat)
    (q : String) : nlook s q ≤ nlook (daddIf s pid m) q := by
  unfold daddIf
  cases h : dlook s pid with
  | none => exact le_refl _
  | some n =>
    by_cases hq : q = pid
    · subst hq
      unfold nlook
      rw [dlook_dset_self, h]
      simp
    · unfold nlook
      rw [dlook_dset_ne s pid q _ hq]

theorem dincIf_mono (s : List (String × Nat)) (pid q : String) :
    nlook s q ≤ nlook (dincIf s pid) q := by
  by_cases hq : q = pid
  · subst hq
    rw [nlook_dincIf_self]
    exact Nat.le_add_right _ _
  · rw [nlook_dincIf_ne s pid q hq]

theorem foldl_mono_nlook {β : Type} (step : List (String × Nat) → β → List (String × Nat))
    (hstep : ∀ s b p, nlook s p ≤ nlook (step s b) p) :
    ∀ (l : List β) (s : List (String × Nat)) (p : String),
      nlook s p ≤ nlook (l.foldl step s) p := by
  intro l
  induction l with
  | nil => intro s p; exact le_refl _
  | cons b l ih =>
    intro s p
    exact le_trans (hstep s b p) (ih (step s b) p)

/-! ### Lemmas about the extraction loop -/

namespace CookieExtractor

theorem extractAllGo_skip_none (pathOk : String → Bool)
    (sql : Profile → Except Unit (List (String × String)))
    (write : String → Except Unit Unit) (ts : Nat) (p : Profile)
    (rest : List Profile) (acc : List (String × List (String × String)))
    (store : Store) (hid : p.id = none) :
    extractAllGo pathOk sql write ts (p :: rest) acc store =
      extractAllGo pathOk sql write ts rest acc store := by
  simp [extractAllGo, hid]

theorem extractAllGo_skip_blank (pathOk : String → Bool)
    (sql : Profile → Except Unit (List (String × String)))
    (write : String → Except Unit Unit) (ts : Nat) (p : Profile)
    (rest : List Profile) (acc : List (String × List (String × String)))
    (store : Store) (hid : p.id = some "") :
    extractAllGo pathOk sql write ts (p :: rest) acc store =
      extractAllGo pathOk sql write ts rest acc store := by
  simp [extractAllGo, hid]

theorem extractAllGo_skip_empty (pathOk : String → Bool)
    (sql : Profile → Except Unit (List (String × String)))
    (write : String → Except Unit Unit) (ts : Nat) (p : Profile)
    (rest : List Profile) (acc : List (String × List (String × String)))
    (store : Store) (pid' : String) (hid : p.id = some pid') (hb : ¬(pid' = ""))
    (he : (extract_cookies_from_profile pathOk sql p).isEmpty = true) :
    extractAllGo pathOk sql write ts (p :: rest) acc store =
      extractAllGo pathOk sql write ts rest acc store := by
  simp [extractAllGo, hid, hb, he]

theorem extractAllGo_step (pathOk : String → Bool)
    (sql : Profile → Except Unit (List (String × String)))
    (write : String → Except Unit Unit) (ts : Nat) (p : Profile)
    (rest : List Profile) (acc : List (String × List (String × String)))
    (store : Store) (pid' : String) (hid : p.id = some pid') (hb : ¬(pid' = ""))
    (he : ¬((extract_cookies_from_profile pathOk sql p).isEmpty = true)) :
    extractAllGo pathOk sql write ts (p :: rest) acc store =
      extractAllGo pathOk sql write ts rest
        (dset acc pid' (extract_cookies_from_profile pathOk sql p))
        (save_session write store pid' (extract_cookies_from_profile pathOk sql p) ts).1 := by
  simp [extractAllGo, hid, hb, he]

theorem extractAllGo_keys_mem (pathOk : String → Bool)
    (sql : Profile → Except Unit (List (String × String)))
    (write : String → Except Unit Unit) (ts : Nat) (pid : String) :
    ∀ (ps : List Profile) (acc : List (String × List (String × String)))
      (store : Store),
      pid ∈ dkeys (extractAllGo pathOk sql write ts ps acc store).1 ↔
        pid ∈ dkeys acc ∨ ∃ p ∈ ps, p.id = some pid ∧ ¬(pid = "") ∧
          ¬((extract_cookies_from_profile pathOk sql p).isEmpty = true) := by
  intro ps
  induction ps with
  | nil =>
    intro acc store
    simp [extractAllGo]
  | cons p rest ih =>
    intro acc store
    have hsplit : ∀ P : Prop,
        ((∃ q ∈ rest, q.id = some pid ∧ ¬(pid = "") ∧
          ¬((extract_cookies_from_profile pathOk sql q).isEmpty = true)) → P) →
        ((p.id = some pid ∧ ¬(pid = "") ∧
          ¬((extract_cookies_from_profile pathOk sql p).isEmpty = true)) → P) →
        (∃ q ∈ p :: rest, q.id = some pid ∧ ¬(pid = "") ∧
          ¬((extract_cookies_from_profile pathOk sql q).isEmpty = true)) → P := by
      intro P hrest hhead ⟨q, hq, hprop⟩
      rcases List.mem_cons.mp hq with rfl | hq2
      · exact hhead hprop
      · exact hrest ⟨q, hq2, hprop⟩
    cases hid : p.id with
    | none =>
      rw [extractAllGo_skip_none pathOk sql write ts p rest acc store hid, ih acc store]
      constructor
      · rintro (h | ⟨q, hq, hprop⟩)
        · exact Or.inl h
        · exact Or.inr ⟨q, List.mem_cons_of_mem p hq, hprop⟩
      · rintro (h | hex)
        · exact Or.inl h
        · refine hsplit _ (fun hx => Or.inr hx) (fun hx => ?_) hex
          rw [hid] at hx
          simp at hx
    | some pid' =>
      by_cases hblank : pid' = ""
      · subst hblank
        rw [extractAllGo_skip_blank pathOk sql write ts p rest acc store hid, ih acc store]
        constructor
        · rintro (h | ⟨q, hq, hprop⟩)
          · exact Or.inl h
          · exact Or.inr ⟨q, List.mem_cons_of_mem p hq, hprop⟩
        · rintro (h | hex)
          · exact Or.inl h
          · refine hsplit _ (fun hx => Or.inr hx) (fun hx => ?_) hex
            rw [hid] at hx
            exact absurd (Option.some_inj.mp hx.1).symm hx.2.1
      · by_cases hempty : (extract_cookies_from_profile pathOk sql p).isEmpty = true
        · rw [extractAllGo_skip_empty pathOk sql write ts p rest acc store pid' hid
            hblank hempty, ih acc store]
          constructor
          · rintro (h | ⟨q, hq, hprop⟩)
            · exact Or.inl h
            · exact Or.inr ⟨q, List.mem_cons_of_mem p hq, hprop⟩
          · rintro (h | hex)
            · exact Or.inl h
            · refine hsplit _ (fun hx => Or.inr hx) (fun hx => ?_) hex
              exact absurd hempty hx.2.2
        · rw [extractAllGo_step pathOk sql write ts p rest acc store pid' hid
            hblank hempty, ih _ _, mem_dkeys_dset]
          constructor
          · rintro ((rfl | h) | ⟨q, hq, hprop⟩)
            · exact Or.inr ⟨p, List.mem_cons_self p rest, hid, hblank, hempty⟩
            · exact Or.inl h
            · exact Or.inr ⟨q, List.mem_cons_of_mem p hq, hprop⟩
          · rintro (h | hex)
            · exact Or.inl (Or.inr h)
            · refine hsplit _ (fun hx => Or.inr hx) (fun hx => ?_) hex
              rw [hid] at hx
              exact Or.inl (Or.inl (Option.some_inj.mp hx.1).symm)

theorem extractAllGo_keys_nodup (pathOk : String → Bool)
    (sql : Profile → Except Unit (List (String × String)))
    (write : String → Except Unit Unit) (ts : Nat) :
    ∀ (ps : List Profile) (acc : List (String × List (String × String)))
      (store : Store), (dkeys acc).Nodup →
      (dkeys (extractAllGo pathOk sql write ts ps acc store).1).Nodup := by
  intro ps
  induction ps with
  | nil => intro acc store h; exact h
  | cons p rest ih =>
    intro acc store h
    cases hid : p.id with
    | none =>
      rw [extractAllGo_skip_none pathOk sql write ts p rest acc store hid]
      exact ih acc store h
    | some pid' =>
      by_cases hblank : pid' = ""
      · subst hblank
        rw [extractAllGo_skip_blank pathOk sql write ts p rest acc store hid]
        exact ih acc store h
      · by_cases hempty : (extract_cookies_from_profile pathOk sql p).isEmpty = true
        · rw [extractAllGo_skip_empty pathOk sql write ts p rest acc store pid' hid
            hblank hempty]
          exact ih acc store h
        · rw [extractAllGo_step pathOk sql write ts p rest acc store pid' hid
            hblank hempty]
          exact ih _ _ (dkeys_nodup_dset acc pid' _ h)

end CookieExtractor

/-! ### Concrete objects used by witnesses and counterexamples -/

/-- A file-write oracle that always succeeds. -/
def writeOk : String → Except Unit Unit := fun _ => Except.ok ()

/-- A generator subprocess oracle that always fails to produce an address. -/
def subNone : Nat → HideMyEmailGenerator.SubprocessResult := fun _ => Except.ok none

/-- A constant coarse clock (all calls within the same second). -/
def clock0 : Nat → Nat := fun _ => 0

/-- Two configured profiles, generation quota 0, hourly refresh. -/
def cfg2 : Config := ⟨[⟨some "A", some "pa"⟩, ⟨some "B", some "pb"⟩], some 0, some 60⟩

/-- An environment in which profile A's Cookies file exists and yields one
cookie while profile B's Cookies file is missing (extraction always fails). -/
def env2 : Env :=
  ⟨cfg2, fun s => s == "pa/Cookies",
   fun p => Except.ok (if p.id = some "A" then [("dsid", "v")] else []),
   writeOk, subNone, clock0⟩

/-- A freshly constructed scheduler state: stopped, with zeroed stats for the
two configured profiles and an empty session directory. -/
def stZero : SchedState := ⟨false, false, none, none,
  [("A", 0), ("B", 0)], [("A", 0), ("B", 0)], []⟩

/-- A stopped scheduler state whose next run is scheduled at time 5. -/
def stSched5 : SchedState := ⟨false, false, none, some 5, [], [], []⟩

/-- C4 as the spec states it: `put` then `get` returns the stored credential
set, and a second `put` for the same identity fully replaces the first. -/
theorem c4_session_roundtrip_replaces (write : String → Except Unit Unit)
    (store : Store) (pid : String) (c₁ c₂ : List (String × String)) (t₁ t₂ : Nat)
    (hw : write (CookieExtractor.sessionPath pid) = Except.ok ()) :
    HideMyEmailGenerator.load_session
      (CookieExtractor.save_session write store pid c₁ t₁).1 pid =
      some ⟨c₁, pid, t₁⟩ ∧
    HideMyEmailGenerator.load_session
      (CookieExtractor.save_session write
        (CookieExtractor.save_session write store pid c₁ t₁).1 pid c₂ t₂).1 pid =
      some ⟨c₂, pid, t₂⟩ := by
  unfold CookieExtractor.save_session
  rw [hw]
  exact ⟨dlook_dset_self store pid _,
    dlook_dset_self (dset store pid ⟨c₁, pid, t₁⟩) pid _⟩

/-- Witness for C4 at a concrete store, identity and credential sets. -/
theorem c4_session_roundtrip_replaces_witness :
    HideMyEmailGenerator.load_session
      (CookieExtractor.save_session writeOk [] "a" [("dsid", "v1")] 3).1 "a" =
      some ⟨[("dsid", "v1")], "a", 3⟩ ∧
    HideMyEmailGenerator.load_session
      (CookieExtractor.save_session writeOk
        (CookieExtractor.save_session writeOk [] "a" [("dsid", "v1")] 3).1 "a"
        [("scnt", "v2")] 4).1 "a" =
      some ⟨[("scnt", "v2")], "a", 4⟩ :=
  c4_session_roundtrip_replaces writeOk [] "a" [("dsid", "v1")] [("scnt", "v2")] 3 4 rfl

/-- C5 as the spec states it: on a state whose background-thread liveness
agrees with its `running` flag, `start` while running returns `False` and
changes nothing, and `stop` while stopped returns `False`, changes nothing
and leaves `running == False`; neither raises (both are total functions). -/
theorem c5_invalid_transitions (env : Env) (tNow : Int) (ts : Nat)
    (st : SchedState) (hwf : st.threadAlive = st.running) :
    (st.running = true →
      (TaskScheduler.start env tNow ts st).1 = false ∧
      (TaskScheduler.start env tNow ts st).2 = st) ∧
    (st.running = false →
      (TaskScheduler.stop st).1 = false ∧
      (TaskScheduler.stop st).2.running = false ∧
      (TaskScheduler.stop st).2 = st) := by
  constructor
  · intro hr
    have ha : st.threadAlive = true := by rw [hwf, hr]
    constructor <;> simp [TaskScheduler.start, ha]
  · intro hr
    refine ⟨?_, ?_, ?_⟩ <;> simp [TaskScheduler.stop, hr]

/-- Witness for C5: on the concrete stopped state, `stop` reports failure and
leaves `running == false`. -/
theorem c5_invalid_transitions_witness :
    (TaskScheduler.stop stZero).1 = false ∧
    (TaskScheduler.stop stZero).2.running = false :=
  ⟨((c5_invalid_transitions env2 0 0 stZero rfl).2 rfl).1,
   ((c5_invalid_transitions env2 0 0 stZero rfl).2 rfl).2.1⟩

/-- C7 as the spec states it: the status snapshot's `time_until_next` equals
`next_scheduled - now` floored at zero, and is `None` when nothing is
scheduled. -/
def C7Claim (st : SchedState) (now : Int) : Prop :=
  (TaskScheduler.get_status st now).time_until_next =
    match st.next_scheduled with
    | none => none
    | some t => some (max (t - now) 0)

/-- C7 fails on the code: with the next run scheduled at time 5 and the
clock at 10, `get_status` reports `-5`, not the claimed floor of zero. -/
theorem c7_counterexample : ¬ C7Claim stSched5 10 := by
  unfold C7Claim
  decide

/-- C7 amended: `time_until_next` is `None` when nothing is scheduled, and
equals `next_scheduled - now` without flooring (it can be negative) whenever
the scheduled timestamp is truthy (nonzero). -/
theorem c7_seconds_until_next_amended (st : SchedState) (now : Int) :
    (st.next_scheduled = none →
      (TaskScheduler.get_status st now).time_until_next = none) ∧
    (∀ t : Int, st.next_scheduled = some t → ¬(t = 0) →
      (TaskScheduler.get_status st now).time_until_next = some (t - now)) := by
  constructor
  · intro h
    simp [TaskScheduler.get_status, TaskScheduler.truthyTime, h]
  · intro t ht hz
    simp [TaskScheduler.get_status, TaskScheduler.truthyTime, ht, hz]

/-- Witness for the amended C7 at the concrete state: the reported value is
the negative difference. -/
theorem c7_seconds_until_next_amended_witness :
    (TaskScheduler.get_status stSched5 10).time_until_next = some (5 - 10) :=
  (c7_seconds_until_next_amended stSched5 10).2 5 rfl (by decide)

/-! ### Lemmas about the scheduler jobs -/

theorem extract_job_emails_unchanged (env : Env) (tN : Int) (ts : Nat)
    (st : SchedState) :
    (TaskScheduler.extract_cookies_job env tN ts st).2.emails_generated =
      st.emails_generated := rfl

theorem generate_job_counts_unchanged (env : Env) (st : SchedState) :
    (TaskScheduler.generate_emails_job env st).2.extraction_counts =
      st.extraction_counts := rfl

theorem extract_job_counts (env : Env) (tN : Int) (ts : Nat) (st : SchedState)
    (pid : String) :
    nlook (TaskScheduler.extract_cookies_job env tN ts st).2.extraction_counts pid =
      nlook st.extraction_counts pid +
      (if (dlook st.extraction_counts pid).isSome = true ∧
          pid ∈ dkeys (TaskScheduler.extract_cookies_job env tN ts st).1
        then 1 else 0) := by
  have hkeys : (dkeys (TaskScheduler.extract_cookies_job env tN ts st).1).Nodup := by
    show (dkeys (CookieExtractor.extractAllGo env.pathOk env.sql env.write ts
      env.config.profiles [] st.store).1).Nodup
    exact CookieExtractor.extractAllGo_keys_nodup env.pathOk env.sql env.write ts
      env.config.profiles [] st.store (by simp [dkeys])
  show nlook ((dkeys (TaskScheduler.extract_cookies_job env tN ts st).1).foldl
    dincIf st.extraction_counts) pid = _
  rw [foldl_dincIf]
  by_cases hs : (dlook st.extraction_counts pid).isSome = true
  · by_cases hm : pid ∈ dkeys (TaskScheduler.extract_cookies_job env tN ts st).1
    · rw [List.count_eq_one_of_mem hkeys hm]
      simp [hs, hm]
    · rw [List.count_eq_zero.mpr hm]
      simp [hs, hm]
  · simp [hs]

theorem extract_job_mono (env : Env) (tN : Int) (ts : Nat) (st : SchedState)
    (pid : String) :
    nlook st.extraction_counts pid ≤
      nlook (TaskScheduler.extract_cookies_job env tN ts st).2.extraction_counts pid := by
  rw [extract_job_counts]
  exact Nat.le_add_right _ _

theorem generate_job_mono (env : Env) (st : SchedState) (pid : String) :
    nlook st.emails_generated pid ≤
      nlook (TaskScheduler.generate_emails_job env st).2.emails_generated pid := by
  show nlook st.emails_generated pid ≤
    nlook ((HideMyEmailGenerator.generate_batch st.store env.sub env.clock
      (TaskScheduler.configuredIds env.config)
      (env.config.email_limit_per_hour.getD 5) "Auto_").1.foldl
        (fun s pr => daddIf s pr.1 pr.2.length) st.emails_generated) pid
  exact foldl_mono_nlook _ (fun s b p => daddIf_mono s b.1 b.2.length p) _ _ _

/-- C2 as the spec states it: one `run_now` increments `extractions_count` by
one for every configured identity, including identities whose extraction
attempt failed. -/
def C2Claim (env : Env) (tN : Int) (ts : Nat) (tD : Int) (st : SchedState) : Prop :=
  ∀ pid ∈ TaskScheduler.configuredIds env.config,
    nlook (TaskScheduler.run_now env tN ts tD st).2.extraction_counts pid =
      nlook st.extraction_counts pid + 1

/-- C2 fails on the code: with profile A extracting successfully and profile
B always failing, one `run_now` leaves `extraction_counts["B"]` at 0, not 1 —
the job only counts identities present in the returned (successful) cookie
dictionary. -/
theorem c2_counterexample : ¬ C2Claim env2 0 0 0 stZero := by
  intro h
  have hb := h "B" (by decide)
  revert hb
  decide

/-- C2 amended: `run_now` increments `extractions_count` by one exactly for
the identities whose extraction succeeded (tracked in the stats dictionary
and present in the returned cookie dictionary); identities whose extraction
failed, or that the stats dictionary does not track, are left unchanged.  An
identity is in the returned dictionary iff some configured profile carries
its (truthy) id and produced a nonempty cookie set. -/
theorem c2_extraction_counts_amended (env : Env) (tN : Int) (ts : Nat)
    (tD : Int) (st : SchedState) (pid : String) :
    (nlook (TaskScheduler.run_now env tN ts tD st).2.extraction_counts pid =
      nlook st.extraction_counts pid +
      (if (dlook st.extraction_counts pid).isSome = true ∧
          pid ∈ dkeys (TaskScheduler.extract_cookies_job env tN ts st).1
        then 1 else 0)) ∧
    (pid ∈ dkeys (TaskScheduler.extract_cookies_job env tN ts st).1 ↔
      ∃ p ∈ env.config.profiles, p.id = some pid ∧ ¬(pid = "") ∧
        ¬((CookieExtractor.extract_cookies_from_profile env.pathOk env.sql
            p).isEmpty = true)) := by
  constructor
  · have hrn : (TaskScheduler.run_now env tN ts tD st).2.extraction_counts =
        (TaskScheduler.extract_cookies_job env tN ts st).2.extraction_counts := rfl
    rw [hrn]
    exact extract_job_counts env tN ts st pid
  · have hjob : (TaskScheduler.extract_cookies_job env tN ts st).1 =
        (CookieExtractor.extractAllGo env.pathOk env.sql env.write ts
          env.config.profiles [] st.store).1 := rfl
    rw [hjob, CookieExtractor.extractAllGo_keys_mem]
    simp [dkeys]

/-- C8 as the spec states it: no scheduler operation ever decreases (or
resets) a per-identity `extractions_count` or `emails_generated_count`
counter; they are monotonically non-decreasing across every operation of one
scheduler instance. -/
theorem c8_counters_monotone (env : Env) (op : SchedOp) (st : SchedState)
    (pid : String) :
    nlook st.extraction_counts pid ≤
      nlook (applyOp env op st).extraction_counts pid ∧
    nlook st.emails_generated pid ≤
      nlook (applyOp env op st).emails_generated pid := by
  cases op with
  | startOp t ts =>
    show nlook st.extraction_counts pid ≤
        nlook (TaskScheduler.start env t ts st).2.extraction_counts pid ∧
      nlook st.emails_generated pid ≤
        nlook (TaskScheduler.start env t ts st).2.emails_generated pid
    by_cases ha : st.threadAlive = true
    · unfold TaskScheduler.start
      simp [ha]
    · have hb : st.threadAlive = false := by
        revert ha; cases st.threadAlive <;> simp
      have hstart : (TaskScheduler.start env t ts st).2 =
          { (TaskScheduler.extract_cookies_job env t ts
              (TaskScheduler.schedule_jobs env t st)).2 with
            threadAlive := true, running := true } := by
        unfold TaskScheduler.start
        rw [hb]
        simp
      rw [hstart]
      constructor
      · exact extract_job_mono env t ts (TaskScheduler.schedule_jobs env t st) pid
      · show nlook st.emails_generated pid ≤
          nlook (TaskScheduler.extract_cookies_job env t ts
            (TaskScheduler.schedule_jobs env t st)).2.emails_generated pid
        rw [extract_job_emails_unchanged]
        exact le_of_eq rfl
  | stopOp =>
    show nlook st.extraction_counts pid ≤
        nlook (TaskScheduler.stop st).2.extraction_counts pid ∧
      nlook st.emails_generated pid ≤
        nlook (TaskScheduler.stop st).2.emails_generated pid
    unfold TaskScheduler.stop
    by_cases hr : st.running <;> simp [hr]
  | runNowOp a b c =>
    show nlook st.extraction_counts pid ≤
        nlook (TaskScheduler.run_now env a b c st).2.extraction_counts pid ∧
      nlook st.emails_generated pid ≤
        nlook (TaskScheduler.run_now env a b c st).2.emails_generated pid
    have h1 : (TaskScheduler.run_now env a b c st).2.extraction_counts =
        (TaskScheduler.generate_emails_job env
          (TaskScheduler.extract_cookies_job env a b st).2).2.extraction_counts := rfl
    have h2 : (TaskScheduler.run_now env a b c st).2.emails_generated =
        (TaskScheduler.generate_emails_job env
          (TaskScheduler.extract_cookies_job env a b st).2).2.emails_generated := rfl
    constructor
    · rw [h1, generate_job_counts_unchanged]
      exact extract_job_mono env a b st pid
    · rw [h2]
      calc nlook st.emails_generated pid
          = nlook (TaskScheduler.extract_cookies_job env a b st).2.emails_generated
              pid := by rw [extract_job_emails_unchanged]
        _ ≤ _ := generate_job_mono env _ pid
  | extractJobOp a b =>
    refine ⟨extract_job_mono env a b st pid, le_of_eq ?_⟩
    show nlook st.emails_generated pid =
      nlook (TaskScheduler.extract_cookies_job env a b st).2.emails_generated pid
    rw [extract_job_emails_unchanged]
  | generateJobOp =>
    refine ⟨le_of_eq ?_, generate_job_mono env st pid⟩
    show nlook st.extraction_counts pid =
      nlook (TaskScheduler.generate_emails_job env st).2.extraction_counts pid
    rw [generate_job_counts_unchanged]
  | scheduleJobsOp t => exact ⟨le_refl _, le_refl _⟩
  | getStatusOp t => exact ⟨le_refl _, le_refl _⟩

namespace HideMyEmailGenerator

/-- The parts of a call record that identify which call was made: profile,
label and global index (dropping the outcome). -/
def callShape (c : Call) : String × String × Nat := (c.pid, c.label, c.idx)

theorem batchGo_filter_pid (store : Store) (sub : Nat → SubprocessResult)
    (clock : Nat → Nat) (pre : String) (count : Nat) (pid : String) :
    ∀ (l₁ l₂ : List String) (results : List (String × List String)) (k : Nat),
      pid ∉ l₁ → pid ∉ l₂ →
      (batchGo store sub clock pre count (l₁ ++ pid :: l₂) results k).2.filter
          (fun c => c.pid == pid) =
        (profileGo store sub clock pid pre (k + count * l₁.length) 0 count).2 := by
  intro l₁
  induction l₁ with
  | nil =>
    intro l₂ results k _ h₂
    show ((batchGo store sub clock pre count (pid :: l₂) results k).2.filter
      (fun c => c.pid == pid)) = _
    simp only [batchGo]
    rw [List.filter_append]
    have hw : (profileGo store sub clock pid pre k 0 count).2.filter
        (fun c => c.pid == pid) = (profileGo store sub clock pid pre k 0 count).2 := by
      apply List.filter_eq_self.mpr
      intro c hc
      have := profileGo_pid store sub clock pid pre k count 0 c hc
      simp [this]
    have hr : (batchGo store sub clock pre count l₂
        (dset results pid (profileGo store sub clock pid pre k 0 count).1)
        (k + count)).2.filter (fun c => c.pid == pid) = [] := by
      apply List.filter_eq_nil.mpr
      intro c hc
      have hmem := batchGo_trace_pid_mem store sub clock pre count l₂ _ (k + count) c hc
      simp only [beq_iff_eq]
      intro heq
      rw [heq] at hmem
      exact h₂ hmem
    rw [hw, hr, List.append_nil]
    have hx : k = k + count * List.length ([] : List String) := by simp
    rw [← hx]
  | cons q l₁ ih =>
    intro l₂ results k h₁ h₂
    have hqa : ¬(pid = q) := by
      intro he
      exact h₁ (he ▸ List.mem_cons_self q l₁)
    have hqb : pid ∉ l₁ := fun hm => h₁ (List.mem_cons_of_mem q hm)
    show ((batchGo store sub clock pre count (q :: (l₁ ++ pid :: l₂)) results k).2.filter
      (fun c => c.pid == pid)) = _
    simp only [batchGo]
    rw [List.filter_append]
    have hw : (profileGo store sub clock q pre k 0 count).2.filter
        (fun c => c.pid == pid) = [] := by
      apply List.filter_eq_nil.mpr
      intro c hc
      have hcq := profileGo_pid store sub clock q pre k count 0 c hc
      simp only [beq_iff_eq, hcq]
      exact fun he => hqa he.symm
    rw [hw, List.nil_append, ih l₂ _ (k + count) hqb h₂]
    have hx : k + count + count * l₁.length = k + count * (q :: l₁).length := by
      simp only [List.length_cons, Nat.mul_succ]
      omega
    rw [hx]

theorem batchGo_shape (store store' : Store) (sub sub' : Nat → SubprocessResult)
    (clock : Nat → Nat) (pre : String) (count : Nat) :
    ∀ (ps : List String) (results results' : List (String × List String)) (k : Nat),
      (batchGo store sub clock pre count ps results k).2.map callShape =
      (batchGo store' sub' clock pre count ps results' k).2.map callShape := by
  intro ps
  induction ps with
  | nil => intro results results' k; rfl
  | cons q rest ih =>
    intro results results' k
    simp only [batchGo, List.map_append]
    rw [ih (dset results q (profileGo store sub clock q pre k 0 count).1)
      (dset results' q (profileGo store' sub' clock q pre k 0 count).1) (k + count)]
    congr 1
    rw [profileGo_trace, profileGo_trace, List.map_map, List.map_map]
    rfl

theorem batchGo_labels (store : Store) (sub : Nat → SubprocessResult)
    (clock : Nat → Nat) (pre : String) (count : Nat) :
    ∀ (ps : List String) (results : List (String × List String)) (k : Nat),
      ps.Nodup →
      ∀ c₁ ∈ (batchGo store sub clock pre count ps results k).2,
      ∀ c₂ ∈ (batchGo store sub clock pre count ps results k).2,
        c₁.pid = c₂.pid → ¬(c₁.idx = c₂.idx) → ¬(c₁.label = c₂.label) := by
  intro ps
  induction ps with
  | nil =>
    intro results k _ c₁ h₁
    simp [batchGo] at h₁
  | cons q rest ih =>
    intro results k hnd c₁ h₁ c₂ h₂ hpid hidx heq
    simp only [batchGo, List.mem_append] at h₁ h₂
    obtain ⟨hq, hrest⟩ := List.nodup_cons.mp hnd
    rcases h₁ with h₁ | h₁ <;> rcases h₂ with h₂ | h₂
    · rw [profileGo_trace] at h₁ h₂
      obtain ⟨j₁, _, rfl⟩ := List.mem_map.mp h₁
      obtain ⟨j₂, _, rfl⟩ := List.mem_map.mp h₂
      have hlab := (labelFor_inj pre (clock (k + (0 + j₁))) (0 + j₁)
        (clock (k + (0 + j₂))) (0 + j₂) heq).2
      apply hidx
      show k + (0 + j₁) = k + (0 + j₂)
      omega
    · have hp₁ := profileGo_pid store sub clock q pre k count 0 c₁ h₁
      have hp₂ := batchGo_trace_pid_mem store sub clock pre count rest _ (k + count) c₂ h₂
      rw [← hpid, hp₁] at hp₂
      exact hq hp₂
    · have hp₂ := profileGo_pid store sub clock q pre k count 0 c₂ h₂
      have hp₁ := batchGo_trace_pid_mem store sub clock pre count rest _ (k + count) c₁ h₁
      rw [hpid, hp₂] at hp₁
      exact hq hp₁
    · exact ih _ (k + count) hrest c₁ h₁ c₂ h₂ hpid hidx heq

end HideMyEmailGenerator

/-! ### Claims about the batch issuer -/

/-- A session holding every required iCloud cookie, for profile `"a"`. -/
def sessComplete : Session :=
  ⟨[("X-APPLE-WEBAUTH-HSA-TRUST", "v"), ("X-APPLE-ID-SESSION-ID", "v"),
    ("X-APPLE-WEBAUTH-USER", "v"), ("dsid", "v"), ("scnt", "v"),
    ("X-APPLE-ID-TOKEN", "v")], "a", 0⟩

/-- A session directory holding one complete session for profile `"a"`. -/
def store1 : Store := [("a", sessComplete)]

/-- A generator subprocess oracle that always succeeds. -/
def subOk : Nat → HideMyEmailGenerator.SubprocessResult :=
  fun _ => Except.ok (some "x@icloud.com")

/-- A generator subprocess oracle that fails on the first call of the run
and succeeds on every later call. -/
def subFailFirst : Nat → HideMyEmailGenerator.SubprocessResult :=
  fun k => if k = 0 then Except.ok none else Except.ok (some "x@icloud.com")

/-- C1 as the spec states it: for an identity with a present, complete cached
credential set in a run over distinct identities, `generate_batch` makes at
most `n` generation calls for that identity, and the returned list for it
has length at most `n`, equal to the number of calls that succeeded. -/
theorem c1_issue_batch_quota (store : Store)
    (sub : Nat → HideMyEmailGenerator.SubprocessResult) (clock : Nat → Nat)
    (pids : List String) (n : Nat) (pre pid : String) (hnd : pids.Nodup)
    (hmem : pid ∈ pids) (s : Session)
    (hs : HideMyEmailGenerator.load_session store pid = some s)
    (hc : completeCookies s.cookies) :
    (((HideMyEmailGenerator.generate_batch store sub clock pids n pre).2.filter
        (fun c => c.pid == pid)).length ≤ n) ∧
    ∃ l, dlook (HideMyEmailGenerator.generate_batch store sub clock pids n pre).1
        pid = some l ∧ l.length ≤ n ∧
      l.length = ((((HideMyEmailGenerator.generate_batch store sub clock pids n
        pre).2.filter (fun c => c.pid == pid)).filter (fun c => c.ok)).length) := by
  obtain ⟨l₁, l₂, rfl⟩ := List.append_of_mem hmem
  have hsub : (pid :: l₂).Nodup :=
    hnd.sublist (List.sublist_append_right l₁ (pid :: l₂))
  have h₂ : pid ∉ l₂ := (List.nodup_cons.mp hsub).1
  have h₁ : pid ∉ l₁ := by
    have hd := List.nodup_append.mp hnd
    exact fun hm => hd.2.2 hm (List.mem_cons_self pid l₂)
  have hfil := HideMyEmailGenerator.batchGo_filter_pid store sub clock pre n pid
    l₁ l₂ [] 0 h₁ h₂
  have hlook := HideMyEmailGenerator.batchGo_lookup_last store sub clock pre n pid
    l₁ l₂ [] 0 h₂
  have hgb : (HideMyEmailGenerator.generate_batch store sub clock
      (l₁ ++ pid :: l₂) n pre).2 =
      (HideMyEmailGenerator.batchGo store sub clock pre n (l₁ ++ pid :: l₂) [] 0).2 :=
    rfl
  constructor
  · rw [hgb, hfil, HideMyEmailGenerator.profileGo_len]
  · refine ⟨(HideMyEmailGenerator.profileGo store sub clock pid pre
      (0 + n * l₁.length) 0 n).1, hlook, ?_, ?_⟩
    · rw [HideMyEmailGenerator.profileGo_emails_length]
      calc ((HideMyEmailGenerator.profileGo store sub clock pid pre
            (0 + n * l₁.length) 0 n).2.filter (fun c => c.ok)).length
          ≤ (HideMyEmailGenerator.profileGo store sub clock pid pre
            (0 + n * l₁.length) 0 n).2.length := List.length_filter_le _ _
        _ = n := HideMyEmailGenerator.profileGo_len store sub clock pid pre
            (0 + n * l₁.length) n 0
    · rw [HideMyEmailGenerator.profileGo_emails_length, hgb, hfil]

/-- Witness for C1: one complete identity, quota 2, an always-succeeding
generator. -/
theorem c1_issue_batch_quota_witness :
    (((HideMyEmailGenerator.generate_batch store1 subOk clock0 ["a"] 2
        "Auto_").2.filter (fun c => c.pid == "a")).length ≤ 2) ∧
    ∃ l, dlook (HideMyEmailGenerator.generate_batch store1 subOk clock0 ["a"] 2
        "Auto_").1 "a" = some l ∧ l.length ≤ 2 ∧
      l.length = ((((HideMyEmailGenerator.generate_batch store1 subOk clock0 ["a"]
        2 "Auto_").2.filter (fun c => c.pid == "a")).filter
          (fun c => c.ok)).length) :=
  c1_issue_batch_quota store1 subOk clock0 ["a"] 2 "Auto_" "a" (by decide)
    (by decide) sessComplete (by decide) (by decide)

/-- C3 as the spec states it: once a generation call for an identity fails,
no later generation call is made for that identity within the same
`generate_batch` run. -/
def C3Claim (store : Store) (sub : Nat → HideMyEmailGenerator.SubprocessResult)
    (clock : Nat → Nat) (pids : List String) (count : Nat) (pre : String) : Prop :=
  ∀ (i j : Nat) (ci cj : HideMyEmailGenerator.Call),
    (HideMyEmailGenerator.generate_batch store sub clock pids count pre).2.get? i =
      some ci →
    (HideMyEmailGenerator.generate_batch store sub clock pids count pre).2.get? j =
      some cj →
    i < j → ci.pid = cj.pid → ci.ok = false → False

/-- C3 fails on the code: with a cached complete session and a generator that
fails on the first call, the run still makes the second call for the same
identity (and it succeeds) — the inner loop has no early exit. -/
theorem c3_counterexample : ¬ C3Claim store1 subFailFirst clock0 ["a"] 2 "Auto_" := by
  intro h
  exact h 0 1 ⟨"a", HideMyEmailGenerator.labelFor "Auto_" 0 0, 0, false⟩
    ⟨"a", HideMyEmailGenerator.labelFor "Auto_" 0 1, 1, true⟩
    (by decide) (by decide) (by decide) rfl rfl

/-- C3 amended: a failed call does not stop the batch — the sequence of calls
made (identity, label and index of each call) is fully determined by the
identity list, the quota, the prefix and the clock; it does not depend on the
session cache or on the outcomes of the generator, and the run always makes
exactly `count` calls per occurrence (`pids.length * count` in total), with a
failed call merely contributing no value. -/
theorem c3_no_early_stop_amended (store store' : Store)
    (sub sub' : Nat → HideMyEmailGenerator.SubprocessResult) (clock : Nat → Nat)
    (pids : List String) (count : Nat) (pre : String) :
    ((HideMyEmailGenerator.generate_batch store sub clock pids count pre).2.map
        HideMyEmailGenerator.callShape =
      (HideMyEmailGenerator.generate_batch store' sub' clock pids count pre).2.map
        HideMyEmailGenerator.callShape) ∧
    (HideMyEmailGenerator.generate_batch store sub clock pids count pre).2.length =
      pids.length * count :=
  ⟨HideMyEmailGenerator.batchGo_shape store store' sub sub' clock pre count
      pids [] [] 0,
   HideMyEmailGenerator.batchGo_trace_length store sub clock pre count pids [] 0⟩

/-- C6 as the spec states it: any two distinct calls of one `generate_batch`
run (same or different identities) receive distinct labels. -/
def C6Claim (store : Store) (sub : Nat → HideMyEmailGenerator.SubprocessResult)
    (clock : Nat → Nat) (pids : List String) (count : Nat) (pre : String) : Prop :=
  ∀ (i j : Nat) (ci cj : HideMyEmailGenerator.Call),
    (HideMyEmailGenerator.generate_batch store sub clock pids count pre).2.get? i =
      some ci →
    (HideMyEmailGenerator.generate_batch store sub clock pids count pre).2.get? j =
      some cj →
    ¬(i = j) → ¬(ci.label = cj.label)

/-- C6 fails on the code: in an admissible execution (the constant clock is
monotone, and with one call per identity no intra-identity sleep constrains
it) two different identities' calls in the same second with equal per-identity
index get the same label `Auto_0_0`. -/
theorem c6_counterexample :
    HideMyEmailGenerator.ClockOk 1 2 clock0 ∧
    ¬ C6Claim [] subNone clock0 ["a", "b"] 1 "Auto_" := by
  constructor
  · exact ⟨fun j j' _ => le_refl _, fun q i _ hi => absurd hi (by omega)⟩
  · intro h
    exact h 0 1 ⟨"a", HideMyEmailGenerator.labelFor "Auto_" 0 0, 0, false⟩
      ⟨"b", HideMyEmailGenerator.labelFor "Auto_" 0 0, 1, false⟩
      (by decide) (by decide) (by decide) rfl

/-- C6 amended: labels are unique per call only within one identity — for a
run over distinct identities, two different calls for the same identity
always get different labels (the per-identity call index is embedded in the
label), while calls for different identities may collide. -/
theorem c6_labels_unique_per_identity_amended (store : Store)
    (sub : Nat → HideMyEmailGenerator.SubprocessResult) (clock : Nat → Nat)
    (pids : List String) (count : Nat) (pre : String) (hnd : pids.Nodup)
    (c₁ : HideMyEmailGenerator.Call)
    (h₁ : c₁ ∈ (HideMyEmailGenerator.generate_batch store sub clock pids count pre).2)
    (c₂ : HideMyEmailGenerator.Call)
    (h₂ : c₂ ∈ (HideMyEmailGenerator.generate_batch store sub clock pids count pre).2)
    (hpid : c₁.pid = c₂.pid) (hidx : ¬(c₁.idx = c₂.idx)) :
    ¬(c₁.label = c₂.label) :=
  HideMyEmailGenerator.batchGo_labels store sub clock pre count pids [] 0 hnd
    c₁ h₁ c₂ h₂ hpid hidx

/-- Witness for the amended C6: the two calls for identity `"a"` with quota 2
carry distinct labels. -/
theorem c6_labels_unique_per_identity_amended_witness :
    ¬(HideMyEmailGenerator.labelFor "Auto_" 0 0 =
      HideMyEmailGenerator.labelFor "Auto_" 0 1) :=
  c6_labels_unique_per_identity_amended store1 subOk clock0 ["a"] 2 "Auto_"
    (by decide)
    ⟨"a", HideMyEmailGenerator.labelFor "Auto_" 0 0, 0, true⟩ (by decide)
    ⟨"a", HideMyEmailGenerator.labelFor "Auto_" 0 1, 1, true⟩ (by decide)
    rfl (by decide)

/-- C9 as the code behaves: when the identity list repeats an identity, the
returned mapping still has a single entry for it (`results[pid] = []` resets
it on each occurrence), and that entry holds exactly the values produced by
the calls of the last occurrence's window — everything produced for earlier
occurrences is discarded. -/
theorem c9_duplicate_identity_last_wins (store : Store)
    (sub : Nat → HideMyEmailGenerator.SubprocessResult) (clock : Nat → Nat)
    (l₁ l₂ : List String) (pid : String) (count : Nat) (pre : String)
    (hnotin : pid ∉ l₂) :
    dlook (HideMyEmailGenerator.generate_batch store sub clock (l₁ ++ pid :: l₂)
        count pre).1 pid =
      some (HideMyEmailGenerator.profileGo store sub clock pid pre
        (count * l₁.length) 0 count).1 ∧
    (dkeys (HideMyEmailGenerator.generate_batch store sub clock (l₁ ++ pid :: l₂)
      count pre).1).Nodup := by
  constructor
  · have h := HideMyEmailGenerator.batchGo_lookup_last store sub clock pre count
      pid l₁ l₂ [] 0 hnotin
    rw [Nat.zero_add] at h
    exact h
  · exact HideMyEmailGenerator.batchGo_keys_nodup store sub clock pre count
      (l₁ ++ pid :: l₂) [] 0 (by simp [dkeys])

/-- Witness for C9: identity `"a"` listed twice with quota 1; the generator
fails on the first occurrence's call and succeeds on the second's, and the
returned entry holds exactly the second occurrence's value. -/
theorem c9_duplicate_identity_last_wins_witness :
    dlook (HideMyEmailGenerator.generate_batch store1 subFailFirst clock0
        (["a"] ++ "a" :: []) 1 "Auto_").1 "a" =
      some (HideMyEmailGenerator.profileGo store1 subFailFirst clock0 "a" "Auto_"
        (1 * List.length ["a"]) 0 1).1 ∧
    (dkeys (HideMyEmailGenerator.generate_batch store1 subFailFirst clock0
      (["a"] ++ "a" :: []) 1 "Auto_").1).Nodup :=
  c9_duplicate_identity_last_wins store1 subFailFirst clock0 ["a"] [] "a" 1
    "Auto_" (by simp)

/-! ### C10: totality of the cycle jobs at the scheduler boundary -/

/-- An environment over a given configuration in which every external
collaborator fails: no Cookies file exists, every sqlite read, file write and
generator subprocess raises. -/
def envFail (c : Config) : Env :=
  ⟨c, fun _ => false, fun _ => Except.error (), fun _ => Except.error (),
   fun _ => Except.error (), fun _ => 0⟩

theorem extract_profile_no_path (sql : Profile → Except Unit (List (String × String)))
    (p : Profile) :
    CookieExtractor.extract_cookies_from_profile (fun _ => false) sql p = [] := by
  unfold CookieExtractor.extract_cookies_from_profile
  cases p.path <;> simp

theorem extractAllGo_fail (sql : Profile → Except Unit (List (String × String)))
    (write : String → Except Unit Unit) (ts : Nat) :
    ∀ (ps : List Profile) (acc : List (String × List (String × String)))
      (store : Store),
      (CookieExtractor.extractAllGo (fun _ => false) sql write ts ps acc store).1 =
        acc := by
  intro ps
  induction ps with
  | nil => intro acc store; rfl
  | cons p rest ih =>
    intro acc store
    cases hid : p.id with
    | none =>
      rw [CookieExtractor.extractAllGo_skip_none (fun _ => false) sql write ts
        p rest acc store hid]
      exact ih acc store
    | some pid' =>
      by_cases hblank : pid' = ""
      · subst hblank
        rw [CookieExtractor.extractAllGo_skip_blank (fun _ => false) sql write ts
          p rest acc store hid]
        exact ih acc store
      · rw [CookieExtractor.extractAllGo_skip_empty (fun _ => false) sql write ts
          p rest acc store pid' hid hblank
          (by rw [extract_profile_no_path sql p]; rfl)]
        exact ih acc store

theorem generate_email_error (store : Store) (pid label : String) :
    HideMyEmailGenerator.generate_email store (Except.error ()) pid label =
      (false, none) := by
  unfold HideMyEmailGenerator.generate_email
  cases HideMyEmailGenerator.load_session store pid with
  | none => rfl
  | some s => by_cases hc : s.cookies.isEmpty <;> simp [hc]

theorem profileGo_error_emails (store : Store) (clock : Nat → Nat)
    (pid pre : String) (k : Nat) : ∀ (rem i : Nat),
    (HideMyEmailGenerator.profileGo store (fun _ => Except.error ()) clock
      pid pre k i rem).1 = [] := by
  intro rem
  induction rem with
  | zero => intro i; rfl
  | succ rem ih =>
    intro i
    show (HideMyEmailGenerator.profileGo store (fun _ => Except.error ()) clock
      pid pre k i (rem + 1)).1 = []
    simp [HideMyEmailGenerator.profileGo, generate_email_error, ih (i + 1)]

theorem mem_dset {α : Type} (d : List (String × α)) (k : String) (v : α)
    (pr : String × α) : pr ∈ dset d k v → pr ∈ d ∨ pr = (k, v) := by
  induction d with
  | nil =>
    intro h
    simp [dset] at h
    exact Or.inr h
  | cons hd tl ih =>
    obtain ⟨k', v'⟩ := hd
    by_cases hk : k' = k
    · intro h
      simp only [dset, hk, if_true] at h
      rcases List.mem_cons.mp h with rfl | h
      · exact Or.inr rfl
      · exact Or.inl (List.mem_cons_of_mem _ h)
    · intro h
      simp only [dset, hk, if_false] at h
      rcases List.mem_cons.mp h with rfl | h
      · exact Or.inl (List.mem_cons_self _ _)
      · rcases ih h with h | h
        · exact Or.inl (List.mem_cons_of_mem _ h)
        · exact Or.inr h

theorem batchGo_error_values (store : Store) (clock : Nat → Nat) (pre : String)
    (count : Nat) : ∀ (ps : List String) (results : List (String × List String))
      (k : Nat), (∀ pr ∈ results, pr.2 = ([] : List String)) →
      ∀ pr ∈ (HideMyEmailGenerator.batchGo store (fun _ => Except.error ()) clock
        pre count ps results k).1, pr.2 = [] := by
  intro ps
  induction ps with
  | nil => intro results k h pr hm; exact h pr hm
  | cons q rest ih =>
    intro results k h pr hm
    refine ih (dset results q (HideMyEmailGenerator.profileGo store
      (fun _ => Except.error ()) clock q pre k 0 count).1) (k + count) ?_ pr hm
    intro pr' hm'
    rcases mem_dset _ _ _ _ hm' with h' | h'
    · exact h pr' h'
    · rw [h']
      exact profileGo_error_emails store clock q pre k count 0

/-- C10 as the claim states it: the cycle jobs are total at the scheduler
boundary.  For every oracle environment (including one where every external
collaborator fails), `run_now` completes and sets `next_scheduled` to the
completion time plus one refresh interval; with all collaborators failing,
the extraction job returns the empty mapping and the generation job's mapping
carries only empty lists — no error escapes either job. -/
theorem c10_cycle_jobs_total (env : Env) (tN : Int) (ts : Nat) (tD : Int)
    (st st' st'' : SchedState) (c : Config) :
    ((TaskScheduler.run_now env tN ts tD st).2.next_scheduled =
      some (tD + 60 * Int.ofNat (env.config.refresh_interval_minutes.getD 60))) ∧
    ((TaskScheduler.extract_cookies_job (envFail c) tN ts st').1 = []) ∧
    (∀ pr ∈ (TaskScheduler.generate_emails_job (envFail c) st'').1, pr.2 = []) := by
  refine ⟨rfl, ?_, ?_⟩
  · show (CookieExtractor.extractAllGo (fun _ => false) (fun _ => Except.error ())
      (fun _ => Except.error ()) ts c.profiles [] st'.store).1 = []
    exact extractAllGo_fail _ _ ts c.profiles [] st'.store
  · intro pr hm
    exact batchGo_error_values st''.store (fun _ => 0) "Auto_"
      (c.email_limit_per_hour.getD 5) (TaskScheduler.configuredIds c) [] 0
      (fun pr' h' => absurd h' (List.not_mem_nil pr')) pr hm
